import Mathlib

/-!
Verification development for src/splice_audio.py.

Shallow embedding conventions:
* Python strings are Lean String values; all character scanning is done on
  String.data (a List Char).
* A text file is modelled as the list of its lines, each line given as its
  content without the trailing newline character (the form in which the
  script consumes lines after its regular expressions discard the newline).
* External collaborators are abstract parameters: slugify (String to
  String), the filesystem existence test os.path.exists (String to Bool),
  and the per-prompt operator input (Nat to String).
* The Audacity pipe is modelled by recording the list of command strings
  written to it; creating the PipeClient is recorded as a Boolean flag.
* Python int(...) applied to the duration group is modelled on nonempty
  digit strings, the only shape the scripted writer ever produces; on any
  other string the model, like the script, fails the parse of that line.
* Python int(seconds / 60) performs float true division and truncates:
  CPython computes the correctly rounded (round-half-to-even) IEEE double
  of the exact quotient.  It is modelled faithfully by pyMinutes, which
  rounds seconds / 60 to 53 significant bits before truncating; the model
  covers the whole range below the float overflow bound (the OverflowError
  raised near 60 * 2 ^ 1024 is outside the model).
-/

/-- Python class Song of splice_audio.py with the defaults of
Song.__init__.  Runtimes are Nat: the script only stores int(...) of a
digit string taken from the manifest. -/
structure Song where
  artist : String := "No artist"
  file : String := "No file defined for track"
  number : Nat := 0
  runtime : Nat := 0
  track : String := "No track name"
deriving DecidableEq

/-- Class constant Song.m3u_track_header. -/
def m3u_track_header : String := "#EXTINF:"

/-- Constant m3u_playlist_header bound in main. -/
def m3u_playlist_header : String := "#EXTM3U"

/-- Default Song.file sentinel, kept by every track that never reaches the
export step. -/
def noFileSentinel : String := "No file defined for track"

/-- Little-endian decimal digits of n, with explicit fuel so that the
definition is structural and kernel-evaluable. -/
def natDigitsRev : Nat → Nat → List Char
  | 0, _ => []
  | f + 1, n => if n = 0 then [] else Nat.digitChar (n % 10) :: natDigitsRev f (n / 10)

/-- Decimal rendering of a Nat, the model of Python str(...) on the
nonnegative integers the script prints. -/
def natToChars (n : Nat) : List Char :=
  if n = 0 then ['0'] else (natDigitsRev n n).reverse

/-- Model of Python int(...) on the strings the manifest scan extracts: a
nonempty all-digit string parses to its value, anything else raises
(returns none). -/
def pyIntChars (cs : List Char) : Option Nat :=
  if cs = [] then none
  else if cs.all Char.isDigit then
    some (cs.foldl (fun a c => a * 10 + (c.toNat - 48)) 0)
  else none

/-- Leftmost match of the pattern colon, lazy nonempty group, comma
(re.search applied to a newline-free line): the group runs from the first
viable colon to the first comma at least two places further on.
splitAtFirst cuts a list at the first occurrence of a character. -/
def splitAtFirst (stop : Char) : List Char → Option (List Char × List Char)
  | [] => none
  | c :: cs =>
    if c = stop then some ([], cs)
    else (splitAtFirst stop cs).map (fun p => (c :: p.1, p.2))

/-- Model of re.search applied to pattern colon (.+?) comma: the duration
group of a track line. -/
def searchDuration : List Char → Option (List Char)
  | [] => none
  | c :: cs =>
    if c = ':' then
      match cs with
      | [] => none
      | d :: cs' =>
        match splitAtFirst ',' cs' with
        | some (pre, _) => some (d :: pre)
        | none => searchDuration cs
    else searchDuration cs

/-- Prefix of the list before its first adjacent space-hyphen pair; none
when no such pair exists. -/
def findSpaceDash : List Char → Option (List Char)
  | [] => none
  | a :: cs =>
    if a = ' ' ∧ cs.head? = some '-' then some []
    else (findSpaceDash cs).map (fun t => a :: t)

/-- Model of re.search applied to pattern comma (.+?) space hyphen: the
artist group of a track line. -/
def searchArtist : List Char → Option (List Char)
  | [] => none
  | c :: cs =>
    if c = ',' then
      match cs with
      | [] => none
      | d :: cs' =>
        match findSpaceDash cs' with
        | some pre => some (d :: pre)
        | none => searchArtist cs
    else searchArtist cs

/-- Model of re.search applied to pattern hyphen space, group to end of
line: everything after the first hyphen-space pair that is followed by at
least one character. -/
def searchTitle : List Char → Option (List Char)
  | [] => none
  | a :: cs =>
    if a = '-' ∧ cs.head? = some ' ' ∧ cs.tail ≠ [] then some cs.tail
    else searchTitle cs

/-- True when the list has an adjacent space-hyphen pair. -/
def hasSpaceDash : List Char → Bool
  | [] => false
  | a :: cs => (a == ' ' && cs.head? == some '-') || hasSpaceDash cs

/-- True when the list has an adjacent hyphen-space pair. -/
def hasDashSpace : List Char → Bool
  | [] => false
  | a :: cs => (a == '-' && cs.head? == some ' ') || hasDashSpace cs

/-- Ingestion of one track-declaration line (the body of the song branch
of the manifest reading loop in main): duration, artist and title are
extracted by the three regular expression searches and n is the running
track counter; any failed search or failed int conversion aborts the run
(modelled by none). -/
def parseSongLine (n : Nat) (line : String) : Option Song :=
  match searchDuration line.data with
  | none => none
  | some dur =>
    match pyIntChars dur with
    | none => none
    | some r =>
      match searchArtist line.data, searchTitle line.data with
      | some art, some tit =>
        some { artist := String.mk art, file := noFileSentinel,
               number := n, runtime := r, track := String.mk tit }
      | _, _ => none

/-- The manifest reading loop of main: every line starting with the track
header is ingested with a 1-based running counter, other lines are
skipped. -/
def readSongs : Nat → List String → Option (List Song)
  | _, [] => some []
  | k, l :: ls =>
    if m3u_track_header.data.isPrefixOf l.data then
      match parseSongLine (k + 1) l with
      | some s => (readSongs (k + 1) ls).map (fun rest => s :: rest)
      | none => none
    else readSongs k ls

/-- The character content of Song.__repr__ up to the first newline: the
track-declaration line written for a song. -/
def lineChars (s : Song) : List Char :=
  m3u_track_header.data ++
    (natToChars s.runtime ++ (',' :: (s.artist.data ++ (' ' :: '-' :: ' ' :: s.track.data))))

/-- The track-declaration line of Song.__repr__ as a String. -/
def songExtinfLine (s : Song) : String := String.mk (lineChars s)

/-- The lines emitted by writing repr(song) for each song in order:
Song.__repr__ contributes the declaration line and then the file line. -/
def writeBody : List Song → List String
  | [] => []
  | s :: rest => songExtinfLine s :: s.file :: writeBody rest

/-- The manifest writer of main: the playlist header line followed by one
declaration block per song via Song.__repr__. -/
def writeManifestLines (songs : List Song) : List String :=
  m3u_playlist_header :: writeBody songs

/-- A parsed copy of a song: what the reader reconstructs, every field
except file (the reader never reads file lines back, leaving the
Song.__init__ default). -/
def resetFile (s : Song) : Song := { s with file := noFileSentinel }

/-- Model of str.endswith on a single suffix. -/
def pyEndsWith (s suffix : String) : Bool := suffix.data.isSuffixOf s.data

/-- Function is_m3u8 of splice_audio.py.  The file argument is the list of
its newline-stripped lines, so the strip of the newline performed on the
first readline result is already accounted for; readline on an empty file
yields the empty string, modelled by headD. -/
def is_m3u8 (playlist_file : String) (fileLines : List String) (good_header : String) : Bool :=
  if !(pyEndsWith playlist_file ".m3u" || pyEndsWith playlist_file ".m3u8") then false
  else if (fileLines.headD "").data = good_header.data then true else false

/-- Fuel-driven floor of the base-two logarithm (0 for inputs below 2);
the fuel argument makes the recursion structural and kernel-evaluable,
and any fuel of at least the bit length of n, in particular n itself,
gives the exact value. -/
def log2fuel : Nat → Nat → Nat
  | 0, _ => 0
  | f + 1, n => if n < 2 then 0 else log2fuel f (n / 2) + 1

/-- Floor of the base-two logarithm of n, 0 for n below 2. -/
def myLog2 (n : Nat) : Nat := log2fuel n n

/-- Round num / den to the nearest integer, ties to even: the rounding
mode of IEEE double arithmetic, used by CPython when it divides two ints
with the true-division operator. -/
def rne (num den : Nat) : Nat :=
  if 2 * (num % den) > den then num / den + 1
  else if 2 * (num % den) < den then num / den
  else if (num / den) % 2 = 1 then num / den + 1 else num / den

/-- Model of Python int(seconds / 60): CPython int true division returns
the correctly rounded IEEE double of the exact quotient and int(...)
truncates it.  For seconds of at least 1 the quotient q = seconds / 60
lies in the binade of exponent e = E - 6, where E is the floor of the
base-two logarithm of 64 * seconds / 60, so the double is the multiple of
2 ^ (e - 52) = 2 ^ (E - 58) nearest to q with ties to even.  When
E is at most 58 the rounded mantissa is rne (seconds * 2 ^ (58 - E)) 60
and truncation divides the mantissa back down; for larger seconds the
rounded value is already an integer multiple of 2 ^ (E - 58).  (The
OverflowError Python raises past the double range, near seconds of
60 * 2 ^ 1024, is outside the model.) -/
def pyMinutes (seconds : Nat) : Nat :=
  if seconds = 0 then 0
  else if myLog2 (64 * seconds / 60) ≤ 58 then
    rne (seconds * 2 ^ (58 - myLog2 (64 * seconds / 60))) 60 /
      2 ^ (58 - myLog2 (64 * seconds / 60))
  else
    rne seconds (60 * 2 ^ (myLog2 (64 * seconds / 60) - 58)) *
      2 ^ (myLog2 (64 * seconds / 60) - 58)

/-- Function get_string_runtime of splice_audio.py.  The minutes figure
is int(seconds / 60), Python float true division truncated, modelled by
pyMinutes; the seconds figure is the exact integer remainder. -/
def get_string_runtime (seconds : Nat) : String :=
  let run_min : String := String.mk (natToChars (pyMinutes seconds))
  let run_seconds : Nat := seconds % 60
  if run_seconds < 10 then run_min ++ ":0" ++ String.mk (natToChars run_seconds)
  else run_min ++ ":" ++ String.mk (natToChars run_seconds)

/-- The base export filename before the leading-n guard: the slugified
track title with spaces replaced by underscores, then the .wav suffix
(str.replace with a one-character pattern is a character map). -/
def baseWavChars (slugged : List Char) : List Char :=
  (slugged.map fun ch => if ch = ' ' then '_' else ch) ++ ('.' :: 'w' :: 'a' :: 'v' :: [])

/-- The output filename computation of the splice loop, including the
guard that prepends an underscore when temp_wav_name starts with the
character n.  Indexing temp_wav_name at 0 is modelled by head?; the list
is never empty since it ends in .wav. -/
def deriveWavChars (slugged : List Char) : List Char :=
  let temp := baseWavChars slugged
  if temp.head? = some 'n' then '_' :: temp else temp

/-- The export filename derived for a track title, through the abstract
slugify collaborator. -/
def deriveWavName (slugify : String → String) (track : String) : String :=
  String.mk (deriveWavChars (slugify track).data)

/-- The absolute export path: os.path.join of the output directory and
the derived name, modelled as slash concatenation. -/
def exportPath (slugify : String → String) (output_directory track : String) : String :=
  output_directory ++ "/" ++ deriveWavName slugify track

/-- The editor commands written for one song before its confirmation
prompt: selection to the declared runtime, zoom to selection, seven zoom
steps, focus on the selection end. -/
def selectCmds (s : Song) : List String :=
  ("Select: Start=0 End=" ++ String.mk (natToChars s.runtime)) :: "ZoomSel:" ::
    (List.replicate 7 "ZoomIn:" ++ ["SkipSelEnd:"])

/-- The editor commands written for one song after its confirmation: trim
to the previous clip boundary, split, export to the computed path, delete
the exported clip, realign the timeline start. -/
def exportCmds (file : String) : List String :=
  ["SelPrevClipBoundaryToCursor:", "Split:",
   "Export2: Filename=" ++ file ++ " NumChannels=2", "Delete:", "Align_StartToZero:"]

/-- The splice loop of main.  choice gives the operator reply to the k-th
confirmation prompt; the reply q breaks out of the loop, leaving this and
all later songs untouched (their file fields keep whatever they held, for
parsed songs the Song.__init__ sentinel).  The result is the list of
editor commands written and the final song list. -/
def spliceLoop (slugify : String → String) (output_directory : String)
    (choice : Nat → String) : Nat → List Song → List String × List Song
  | _, [] => ([], [])
  | k, s :: rest =>
    if choice k = "q" then (selectCmds s, s :: rest)
    else
      let file := exportPath slugify output_directory s.track
      let next := spliceLoop slugify output_directory choice (k + 1) rest
      (selectCmds s ++ exportCmds file ++ next.1, { s with file := file } :: next.2)

/-- The reconciliation pass of main: one forward scan over the songs,
writing each song whose file exists to the output playlist (first
component) and collecting every other song in the error list (second
component); order is preserved and each song goes to exactly one side. -/
def reconcile (fileExists : String → Bool) (songs : List Song) : List Song × List Song :=
  (songs.filter (fun s => fileExists s.file),
   songs.filter (fun s => !(fileExists s.file)))

/-- The reasons a run of main terminates before reconciliation:
badPlaylist is the sys.exit after the is_m3u8 check, parseError is the
uncaught exception raised while ingesting a malformed track line. -/
inductive RunAbort
  | badPlaylist
  | parseError
deriving DecidableEq

/-- Observable outcome of a run of main: whether the PipeClient was
created, every command written to it, the abort reason if any, the song
list after the splice loop, and the success and failure partitions of the
reconciliation pass. -/
structure RunResult where
  sessionCreated : Bool := false
  commands : List String := []
  aborted : Option RunAbort := none
  songs : List Song := []
  successes : List Song := []
  failures : List Song := []
deriving DecidableEq

/-- The control flow of main on a chosen playlist file: validate with
is_m3u8 (exiting before any editor interaction on failure), create the
PipeClient and write Close: and ImportAudio:, ingest the playlist
(aborting on a malformed track line, after those two commands), run the
splice loop, then reconcile. -/
def runMain (slugify : String → String) (fileExists : String → Bool)
    (playlist_file : String) (fileLines : List String)
    (output_directory : String) (choice : Nat → String) : RunResult :=
  if is_m3u8 playlist_file fileLines m3u_playlist_header then
    match readSongs 0 fileLines with
    | none =>
      { sessionCreated := true, commands := ["Close:", "ImportAudio:"],
        aborted := some RunAbort.parseError }
    | some songsIn =>
      let sp := spliceLoop slugify output_directory choice 0 songsIn
      let parts := reconcile fileExists sp.2
      { sessionCreated := true, commands := ["Close:", "ImportAudio:"] ++ sp.1,
        songs := sp.2, successes := parts.1, failures := parts.2 }
  else { aborted := some RunAbort.badPlaylist }

/-- Written from the specification text of section 4.4, for comparison
with the code: the title is everything after the last space-hyphen-space
separator through end of line. -/
def specTitleAfterLastSep : List Char → Option (List Char)
  | [] => none
  | c :: cs =>
    match specTitleAfterLastSep cs with
    | some t => some t
    | none =>
      if c = ' ' then
        match cs with
        | '-' :: ' ' :: rest => some rest
        | _ => none
      else none

/-- Written from the specification text of section 4.4 and section 8, for
comparison with get_string_runtime: minutes are the integer division of
the seconds by 60, then a colon, then the remainder zero-padded to two
digits. -/
def specRuntimeHint (seconds : Nat) : String :=
  String.mk (natToChars (seconds / 60)) ++ ":" ++
    (if seconds % 60 < 10 then "0" ++ String.mk (natToChars (seconds % 60))
     else String.mk (natToChars (seconds % 60)))

/-- Per-song side conditions under which the writer output of a song is
read back verbatim: nonempty artist free of either separator pair, not
ending in a hyphen, nonempty title, a file line that is not mistaken for
a track declaration, and no embedded newline in any written field (so
that each field stays on its own line). -/
def GoodSong (s : Song) : Prop :=
  s.artist.data ≠ [] ∧
  hasSpaceDash s.artist.data = false ∧
  hasDashSpace s.artist.data = false ∧
  s.artist.data.getLast? ≠ some '-' ∧
  s.track.data ≠ [] ∧
  m3u_track_header.data.isPrefixOf s.file.data = false ∧
  '\n' ∉ s.artist.data ∧ '\n' ∉ s.track.data ∧ '\n' ∉ s.file.data

instance (s : Song) : Decidable (GoodSong s) := by
  unfold GoodSong
  infer_instance

/-- Concrete song used to exhibit the writer-reader mismatch on an artist
containing the separator substring. -/
def sepArtistSong : Song :=
  { artist := "A - B", file := "somefile.wav", number := 1, runtime := 100, track := "C" }

/-- Concrete song satisfying every GoodSong side condition. -/
def plainSong : Song :=
  { artist := "Artist X", file := "recording.wav", number := 1, runtime := 185, track := "Song One" }

/-- Two distinct tracks whose titles slugify to the same base name. -/
def dupSongA : Song := { number := 1, runtime := 10, track := "song-one" }

/-- Second track with the same derived filename as dupSongA. -/
def dupSongB : Song := { number := 2, runtime := 20, track := "song-one" }

/-- Tracks for the abort-salvage scenario. -/
def abortSongA : Song := { artist := "AA", number := 1, runtime := 10, track := "alpha" }

/-- Second track of the abort-salvage scenario; the abort is signalled at
its confirmation prompt. -/
def abortSongB : Song := { artist := "BB", number := 2, runtime := 20, track := "beta" }

/-- Third track of the abort-salvage scenario, never reached. -/
def abortSongC : Song := { artist := "CC", number := 3, runtime := 30, track := "gamma" }

theorem string_data_append (a b : String) : (a ++ b).data = a.data ++ b.data := by
  cases a
  cases b
  rfl

theorem string_mk_data (s : String) : String.mk s.data = s := rfl

theorem string_ext {a b : String} (h : a.data = b.data) : a = b := by
  cases a
  cases b
  exact congrArg String.mk h

theorem digitChar_fact : ∀ d, d < 10 →
    (Nat.digitChar d).toNat - 48 = d ∧ (Nat.digitChar d).isDigit = true := by decide

theorem natDigitsRev_all_digits :
    ∀ f n : Nat, ∀ c ∈ natDigitsRev f n, c.isDigit = true := by
  intro f
  induction f with
  | zero => intro n c hc; simp [natDigitsRev] at hc
  | succ f ih =>
    intro n c hc
    by_cases hn : n = 0
    · simp [natDigitsRev, hn] at hc
    · simp only [natDigitsRev, if_neg hn, List.mem_cons] at hc
      rcases hc with hc | hc
      · exact hc ▸ (digitChar_fact (n % 10) (Nat.mod_lt n (by norm_num))).2
      · exact ih (n / 10) c hc

theorem natDigitsRev_foldr :
    ∀ f n : Nat, n ≤ f →
      (natDigitsRev f n).foldr (fun c a => a * 10 + (c.toNat - 48)) 0 = n := by
  intro f
  induction f with
  | zero => intro n hn; interval_cases n; simp [natDigitsRev]
  | succ f ih =>
    intro n hn
    by_cases h0 : n = 0
    · simp [natDigitsRev, h0]
    · have hlt : n / 10 < n := Nat.div_lt_self (Nat.pos_of_ne_zero h0) (by norm_num)
      have hrec := ih (n / 10) (by omega)
      simp only [natDigitsRev, if_neg h0, List.foldr_cons, hrec]
      have hm := (digitChar_fact (n % 10) (Nat.mod_lt n (by norm_num))).1
      have := Nat.div_add_mod n 10
      omega

theorem natToChars_ne_nil (n : Nat) : natToChars n ≠ [] := by
  by_cases h0 : n = 0
  · simp [natToChars, h0]
  · obtain ⟨m, rfl⟩ : ∃ m, n = m + 1 := ⟨n - 1, by omega⟩
    simp [natToChars, h0, natDigitsRev]

theorem natToChars_all_digits (n : Nat) : ∀ c ∈ natToChars n, c.isDigit = true := by
  intro c hc
  by_cases h0 : n = 0
  · simp [natToChars, h0] at hc
    simp [hc]
  · simp only [natToChars, if_neg h0, List.mem_reverse] at hc
    exact natDigitsRev_all_digits n n c hc

theorem pyIntChars_natToChars (n : Nat) : pyIntChars (natToChars n) = some n := by
  have hne := natToChars_ne_nil n
  have hall : (natToChars n).all Char.isDigit = true :=
    List.all_eq_true.mpr (fun c hc => natToChars_all_digits n c hc)
  by_cases h0 : n = 0
  · subst h0; decide
  · simp only [pyIntChars, if_neg hne, hall, if_pos rfl, if_true]
    simp only [natToChars, if_neg h0]
    rw [List.foldl_reverse]
    exact congrArg some (natDigitsRev_foldr n n le_rfl)

theorem isDigit_ne {c : Char} (h : c.isDigit = true) :
    c ≠ ',' ∧ c ≠ ':' ∧ c ≠ '-' := by
  refine ⟨fun hc => ?_, fun hc => ?_, fun hc => ?_⟩ <;> subst hc <;> simp at h

theorem splitAtFirst_append {stop : Char} (xs ys : List Char) (h : stop ∉ xs) :
    splitAtFirst stop (xs ++ stop :: ys) = some (xs, ys) := by
  induction xs with
  | nil => simp [splitAtFirst]
  | cons a tail ih =>
    have ha : a ≠ stop := fun hc => h (hc ▸ List.mem_cons_self a tail)
    have htail : stop ∉ tail := fun hc => h (List.mem_cons_of_mem a hc)
    simp [splitAtFirst, ha, ih htail]

theorem searchDuration_skip (p l : List Char) (hp : ∀ c ∈ p, c ≠ ':') :
    searchDuration (p ++ l) = searchDuration l := by
  induction p with
  | nil => simp
  | cons a tail ih =>
    have ha : a ≠ ':' := hp a (List.mem_cons_self a tail)
    have htail : ∀ c ∈ tail, c ≠ ':' := fun c hc => hp c (List.mem_cons_of_mem a hc)
    simp [searchDuration, ha, ih htail]

theorem searchDuration_hit (d : Char) (cs' pre rest : List Char)
    (h : splitAtFirst ',' cs' = some (pre, rest)) :
    searchDuration (':' :: d :: cs') = some (d :: pre) := by
  simp [searchDuration, h]

theorem findSpaceDash_prefix (xs ys : List Char) (h : hasSpaceDash xs = false) :
    findSpaceDash (xs ++ ' ' :: '-' :: ys) = some xs := by
  induction xs with
  | nil => simp [findSpaceDash]
  | cons a tail ih =>
    simp only [hasSpaceDash, Bool.or_eq_false_iff, Bool.and_eq_false_iff] at h
    have htail := ih h.2
    have hcond : ¬(a = ' ' ∧ (tail ++ ' ' :: '-' :: ys).head? = some '-') := by
      rcases tail with _ | ⟨t0, trest⟩
      · simp
      · intro hc
        rcases h.1 with hb | hb
        · rw [hc.1] at hb; simp at hb
        · simp at hc
          rw [hc.2] at hb; simp at hb
    rw [List.cons_append, findSpaceDash, if_neg hcond, htail]
    rfl

theorem searchArtist_skip (p l : List Char) (hp : ∀ c ∈ p, c ≠ ',') :
    searchArtist (p ++ l) = searchArtist l := by
  induction p with
  | nil => simp
  | cons a tail ih =>
    have ha : a ≠ ',' := hp a (List.mem_cons_self a tail)
    have htail : ∀ c ∈ tail, c ≠ ',' := fun c hc => hp c (List.mem_cons_of_mem a hc)
    simp [searchArtist, ha, ih htail]

theorem hasSpaceDash_of_cons {a : Char} {tail : List Char}
    (h : hasSpaceDash (a :: tail) = false) : hasSpaceDash tail = false := by
  simp only [hasSpaceDash, Bool.or_eq_false_iff] at h
  exact h.2

theorem searchArtist_line (p A rest : List Char) (hp : ∀ c ∈ p, c ≠ ',')
    (hA : A ≠ []) (h : hasSpaceDash A = false) :
    searchArtist (p ++ ',' :: (A ++ ' ' :: '-' :: rest)) = some A := by
  rw [searchArtist_skip p _ hp]
  rcases A with _ | ⟨a0, A'⟩
  · exact absurd rfl hA
  · have hfind := findSpaceDash_prefix A' rest (hasSpaceDash_of_cons h)
    simp [searchArtist, hfind]

theorem searchDuration_line (p R rest : List Char) (hp : ∀ c ∈ p, c ≠ ':')
    (hR : R ≠ []) (hC : ',' ∉ R) :
    searchDuration (p ++ ':' :: (R ++ ',' :: rest)) = some R := by
  rw [searchDuration_skip p _ hp]
  rcases R with _ | ⟨r0, R'⟩
  · exact absurd rfl hR
  · have hC' : ',' ∉ R' := fun hc => hC (List.mem_cons_of_mem r0 hc)
    rw [List.cons_append]
    exact searchDuration_hit r0 _ (r0 :: R').tail rest
      (by rw [List.tail_cons]; exact splitAtFirst_append R' rest hC')

theorem hasDashSpace_append (p ys : List Char) (hp : ∀ c ∈ p, c ≠ '-')
    (hys : hasDashSpace ys = false) : hasDashSpace (p ++ ys) = false := by
  induction p with
  | nil => simpa using hys
  | cons a tail ih =>
    have ha : a ≠ '-' := hp a (List.mem_cons_self a tail)
    have htail : ∀ c ∈ tail, c ≠ '-' := fun c hc => hp c (List.mem_cons_of_mem a hc)
    simp only [List.cons_append, hasDashSpace, Bool.or_eq_false_iff,
      Bool.and_eq_false_iff]
    exact ⟨Or.inl (by simpa using ha), ih htail⟩

theorem searchTitle_prefix (xs t : List Char) (ht : t ≠ [])
    (h1 : hasDashSpace xs = false) (h2 : xs.getLast? ≠ some '-') :
    searchTitle (xs ++ ' ' :: '-' :: ' ' :: t) = some t := by
  induction xs with
  | nil =>
    rw [List.nil_append, searchTitle]
    simp only [List.head?_cons, List.tail_cons]
    rw [if_neg (by simp)]
    rw [searchTitle]
    simp [ht]
  | cons a tail ih =>
    simp only [hasDashSpace, Bool.or_eq_false_iff, Bool.and_eq_false_iff] at h1
    rw [List.cons_append, searchTitle]
    have hcond : ¬(a = '-' ∧ (tail ++ ' ' :: '-' :: ' ' :: t).head? = some ' ' ∧
        (tail ++ ' ' :: '-' :: ' ' :: t).tail ≠ []) := by
      rcases tail with _ | ⟨t0, trest⟩
      · intro hc
        exact h2 (by simp [hc.1])
      · intro hc
        rcases h1.1 with hb | hb
        · rw [hc.1] at hb; simp at hb
        · have : t0 = ' ' := by simpa using hc.2.1
          rw [this] at hb; simp at hb
    rw [if_neg hcond]
    rcases tail with _ | ⟨t0, trest⟩
    · exact ih (by simp [hasDashSpace]) (by simp)
    · refine ih h1.2 ?_
      intro hc
      exact h2 (by simpa using hc)

theorem parseSongLine_repr (s : Song) (k : Nat)
    (hA1 : s.artist.data ≠ []) (hA2 : hasSpaceDash s.artist.data = false)
    (hA3 : hasDashSpace s.artist.data = false)
    (hA4 : s.artist.data.getLast? ≠ some '-')
    (hT : s.track.data ≠ []) :
    parseSongLine k (songExtinfLine s) =
      some { artist := s.artist, file := noFileSentinel, number := k,
             runtime := s.runtime, track := s.track } := by
  have hdig := natToChars_all_digits s.runtime
  have hRne := natToChars_ne_nil s.runtime
  have hRcomma : ',' ∉ natToChars s.runtime := fun hc => (isDigit_ne (hdig _ hc)).1 rfl
  have hRnocomma : ∀ c ∈ natToChars s.runtime, c ≠ ',' :=
    fun c hc => (isDigit_ne (hdig c hc)).1
  have hRdash : ∀ c ∈ natToChars s.runtime, c ≠ '-' :=
    fun c hc => (isDigit_ne (hdig c hc)).2.2
  have hshape1 : lineChars s =
      "#EXTINF".data ++ ':' :: (natToChars s.runtime ++ ',' ::
        (s.artist.data ++ ' ' :: '-' :: ' ' :: s.track.data)) := by
    have hh : m3u_track_header.data = "#EXTINF".data ++ [':'] := by decide
    simp [lineChars, hh, List.append_assoc]
  have hdur : searchDuration (lineChars s) = some (natToChars s.runtime) := by
    rw [hshape1]
    exact searchDuration_line _ _ _ (by decide) hRne hRcomma
  have hshape2 : lineChars s =
      (m3u_track_header.data ++ natToChars s.runtime) ++ ',' ::
        (s.artist.data ++ ' ' :: '-' :: (' ' :: s.track.data)) := by
    simp [lineChars, List.append_assoc]
  have hart : searchArtist (lineChars s) = some s.artist.data := by
    rw [hshape2]
    refine searchArtist_line _ _ _ ?_ hA1 hA2
    intro c hc
    rcases List.mem_append.mp hc with hc | hc
    · have hhd : ∀ c ∈ m3u_track_header.data, c ≠ ',' := by decide
      exact hhd c hc
    · exact hRnocomma c hc
  have hshape3 : lineChars s =
      ((m3u_track_header.data ++ natToChars s.runtime ++ [',']) ++ s.artist.data)
        ++ ' ' :: '-' :: ' ' :: s.track.data := by
    simp [lineChars, List.append_assoc]
  have hxs1 : hasDashSpace
      ((m3u_track_header.data ++ natToChars s.runtime ++ [',']) ++ s.artist.data) = false := by
    refine hasDashSpace_append _ _ ?_ hA3
    intro c hc
    simp only [List.mem_append, List.mem_singleton] at hc
    rcases hc with (hc | hc) | hc
    · have hhd : ∀ c ∈ m3u_track_header.data, c ≠ '-' := by decide
      exact hhd c hc
    · exact hRdash c hc
    · subst hc; decide
  have hxs2 : (((m3u_track_header.data ++ natToChars s.runtime ++ [',']) ++
      s.artist.data)).getLast? ≠ some '-' := by
    rw [List.getLast?_append_of_ne_nil _ hA1]
    exact hA4
  have htit : searchTitle (lineChars s) = some s.track.data := by
    rw [hshape3]
    exact searchTitle_prefix _ _ hT hxs1 hxs2
  have hdata : (songExtinfLine s).data = lineChars s := rfl
  simp only [parseSongLine, hdata, hdur, hart, htit, pyIntChars_natToChars]

theorem isPrefixOf_append_self (l t : List Char) : l.isPrefixOf (l ++ t) = true := by
  induction l with
  | nil => cases t <;> rfl
  | cons a tail ih => simp [List.isPrefixOf]

theorem readSongs_writeBody (songs : List Song) : ∀ k : Nat,
    (∀ s ∈ songs, GoodSong s) →
    songs.map Song.number = List.range' (k + 1) songs.length →
    readSongs k (writeBody songs) = some (songs.map resetFile) := by
  induction songs with
  | nil => intro k _ _; rfl
  | cons s rest ih =>
    intro k hgood hnum
    have hs := hgood s (List.mem_cons_self s rest)
    unfold GoodSong at hs
    obtain ⟨hA1, hA2, hA3, hA4, hT, hFile, -, -, -⟩ := hs
    simp only [List.map_cons, List.length_cons, List.range'] at hnum
    have hn1 : s.number = k + 1 := (List.cons.injEq _ _ _ _ ▸ hnum).1
    have hnrest : rest.map Song.number = List.range' (k + 1 + 1) rest.length := by
      have := (List.cons.injEq _ _ _ _ ▸ hnum).2
      simpa using this
    have hgrest : ∀ t ∈ rest, GoodSong t := fun t ht => hgood t (List.mem_cons_of_mem s ht)
    have hpref1 : m3u_track_header.data.isPrefixOf (songExtinfLine s).data = true := by
      have : (songExtinfLine s).data = lineChars s := rfl
      rw [this, lineChars]
      exact isPrefixOf_append_self _ _
    have hparse := parseSongLine_repr s (k + 1) hA1 hA2 hA3 hA4 hT
    have heq : ({ artist := s.artist, file := noFileSentinel, number := k + 1,
                  runtime := s.runtime, track := s.track } : Song) = resetFile s := by
      rw [← hn1]; rfl
    rw [writeBody, readSongs, if_pos hpref1, hparse, readSongs, if_neg (by simp [hFile]),
      ih (k + 1) hgrest hnrest, heq]
    rfl

theorem log2fuel_le : ∀ (f n c : Nat), n < 2 ^ (c + 1) → log2fuel f n ≤ c := by
  intro f
  induction f with
  | zero => intro n c _; exact Nat.zero_le c
  | succ f ih =>
    intro n c hn
    by_cases h2 : n < 2
    · simp [log2fuel, h2]
    · rw [log2fuel, if_neg h2]
      rcases c with _ | c'
      · exfalso
        have hone : (2 : Nat) ^ 1 = 2 := by norm_num
        omega
      · have hh : n / 2 < 2 ^ (c' + 1) := by
          have hp : (2 : Nat) ^ (c' + 1 + 1) = 2 ^ (c' + 1) * 2 := by ring
          omega
        exact Nat.succ_le_succ (ih (n / 2) c' hh)

theorem myLog2_le (n c : Nat) (h : n < 2 ^ (c + 1)) : myLog2 n ≤ c :=
  log2fuel_le n n c h

theorem rne_bounds (num den : Nat) :
    num / den ≤ rne num den ∧ rne num den ≤ num / den + 1 := by
  unfold rne
  split_ifs <;> omega

theorem rne_mul_pow_div (a k : Nat) (hk : 6 ≤ k) :
    rne (a * 2 ^ k) 60 / 2 ^ k = a / 60 := by
  have h2k : 60 < 2 ^ k := by
    calc (60 : Nat) < 64 := by norm_num
    _ = 2 ^ 6 := by norm_num
    _ ≤ 2 ^ k := Nat.pow_le_pow_right (by norm_num) hk
  have hq0 : a * 2 ^ k / 60 = a % 60 * 2 ^ k / 60 + a / 60 * 2 ^ k := by
    have hsplit : a * 2 ^ k = a % 60 * 2 ^ k + (a / 60 * 2 ^ k) * 60 := by
      conv_lhs => rw [← Nat.div_add_mod a 60]
      ring
    rw [hsplit, Nat.add_mul_div_right _ _ (by norm_num : (0:Nat) < 60)]
  have hr59 : a % 60 ≤ 59 := by omega
  have h1 : a % 60 * 2 ^ k ≤ 59 * 2 ^ k := Nat.mul_le_mul_right _ hr59
  have ht : a % 60 * 2 ^ k / 60 < 2 ^ k - 1 := by
    rw [Nat.div_lt_iff_lt_mul (by norm_num : (0:Nat) < 60)]
    omega
  have hb := rne_bounds (a * 2 ^ k) 60
  have hexp : (a / 60 + 1) * 2 ^ k = a / 60 * 2 ^ k + 2 ^ k := by ring
  refine Nat.div_eq_of_lt_le ?_ ?_
  · omega
  · omega

theorem pyMinutes_eq (a : Nat) (h : a < 60 * 2 ^ 47) : pyMinutes a = a / 60 := by
  by_cases h0 : a = 0
  · subst h0; rfl
  · have hy : 64 * a / 60 < 2 ^ 53 := by
      refine Nat.div_lt_of_lt_mul ?_
      have h64 : (64 : Nat) * (60 * 2 ^ 47) = 2 ^ 53 * 60 := by norm_num
      omega
    have hE : myLog2 (64 * a / 60) ≤ 52 := by
      refine myLog2_le _ 52 ?_
      have h53 : (2 : Nat) ^ (52 + 1) = 2 ^ 53 := by norm_num
      omega
    rw [pyMinutes, if_neg h0, if_pos (by omega : myLog2 (64 * a / 60) ≤ 58)]
    exact rne_mul_pow_div a (58 - myLog2 (64 * a / 60)) (by omega)

/-- C1 counterexample: two distinct tracks (numbers 1 and 2) with the same
title derive the same filename, and the splice loop assigns both the very
same export path with no track index appended, so two tracks in one run do
share an export path, contrary to the claim. -/
theorem C1_counterexample :
    (spliceLoop (fun s => s) "/out" (fun _ => "") 0 [dupSongA, dupSongB]).2.map Song.file =
      ["/out/song-one.wav", "/out/song-one.wav"] ∧
    dupSongA.number ≠ dupSongB.number ∧ dupSongA.track = dupSongB.track := by decide

/-- C1 amended: the splice loop performs no collision disambiguation at
all; in a fully confirmed run every track is assigned exactly the export
path output directory, slash, derived filename of its title, a value that
depends only on the title, so tracks whose titles derive the same filename
are assigned the identical path (the later export overwrites the
earlier). -/
theorem C1_amended (slugify : String → String) (output_directory : String)
    (choice : Nat → String) (k : Nat) (songs : List Song)
    (hc : ∀ i, choice i ≠ "q") :
    (spliceLoop slugify output_directory choice k songs).2.map Song.file =
      songs.map (fun s => exportPath slugify output_directory s.track) := by
  induction songs generalizing k with
  | nil => rfl
  | cons s rest ih =>
    rw [spliceLoop, if_neg (hc k)]
    simp only [List.map_cons]
    rw [ih (k + 1)]

/-- C1 amended, witness at a fully confirmed two-track run with colliding
titles. -/
theorem C1_amended_witness :
    (spliceLoop (fun s => s) "/out" (fun _ => "") 0 [dupSongA, dupSongB]).2.map Song.file =
      [dupSongA, dupSongB].map (fun s => exportPath (fun x => x) "/out" s.track) :=
  C1_amended (fun x => x) "/out" (fun _ => "") 0 [dupSongA, dupSongB]
    (by intro i; show ("" : String) ≠ "q"; decide)

/-- C3 counterexample: on the track line with artist-title text
A - B - C, the parser extracts the title B - C, everything after the
first hyphen-space, while the claimed last-separator split yields C. -/
theorem C3_counterexample :
    parseSongLine 1 "#EXTINF:5,A - B - C" =
      some { artist := "A", file := noFileSentinel, number := 1, runtime := 5,
             track := "B - C" } ∧
    specTitleAfterLastSep ("#EXTINF:5,A - B - C".data) = some ("C".data) ∧
    ("B - C" : String) ≠ "C" := by decide

/-- C3 amended: the title the parser extracts is everything after the
first hyphen-space occurrence that is followed by at least one character,
through end of line (not the last separator): whenever no hyphen-space
pair occurs before the split point, the title is the entire remainder. -/
theorem C3_amended (pre t : List Char) (ht : t ≠ [])
    (hpre : hasDashSpace pre = false) :
    searchTitle (pre ++ '-' :: ' ' :: t) = some t := by
  induction pre with
  | nil =>
    rw [List.nil_append, searchTitle]
    simp [ht]
  | cons a tail ih =>
    simp only [hasDashSpace, Bool.or_eq_false_iff, Bool.and_eq_false_iff] at hpre
    rw [List.cons_append, searchTitle]
    have hcond : ¬(a = '-' ∧ (tail ++ '-' :: ' ' :: t).head? = some ' ' ∧
        (tail ++ '-' :: ' ' :: t).tail ≠ []) := by
      rcases tail with _ | ⟨t0, trest⟩
      · intro hc
        have := hc.2.1
        simp at this
      · intro hc
        rcases hpre.1 with hb | hb
        · rw [hc.1] at hb; simp at hb
        · have : t0 = ' ' := by simpa using hc.2.1
          rw [this] at hb; simp at hb
    rw [if_neg hcond]
    exact ih hpre.2

/-- C3 amended, witness on a concrete split point. -/
theorem C3_amended_witness :
    searchTitle ("ab".data ++ '-' :: ' ' :: "xy".data) = some ("xy".data) :=
  C3_amended "ab".data "xy".data (by decide) (by decide)

/-- C4 counterexample: a run whose manifest has a well-formed header but a
malformed track-declaration line aborts with the parse error only after
the editor session is live: the Close: and ImportAudio: commands have
already been sent, so the error does not occur before any command is sent
to the editor. -/
theorem C4_counterexample :
    (runMain (fun s => s) (fun _ => false) "p.m3u8" ["#EXTM3U", "#EXTINF:x"] "/out"
      (fun _ => "")).aborted = some RunAbort.parseError ∧
    (runMain (fun s => s) (fun _ => false) "p.m3u8" ["#EXTM3U", "#EXTINF:x"] "/out"
      (fun _ => "")).commands = ["Close:", "ImportAudio:"] ∧
    (["Close:", "ImportAudio:"] : List String) ≠ [] := by decide

/-- C4 amended: a header failure is fatal before any editor interaction
(no session, no commands), while a track-grammar failure is fatal before
any splice command but occurs after the session is created and the Close:
and ImportAudio: commands are sent. -/
theorem C4_amended (slugify : String → String) (fileExists : String → Bool)
    (playlist_file : String) (fileLines : List String) (output_directory : String)
    (choice : Nat → String) :
    (is_m3u8 playlist_file fileLines m3u_playlist_header = false →
      runMain slugify fileExists playlist_file fileLines output_directory choice =
        { aborted := some RunAbort.badPlaylist }) ∧
    (is_m3u8 playlist_file fileLines m3u_playlist_header = true →
      readSongs 0 fileLines = none →
      runMain slugify fileExists playlist_file fileLines output_directory choice =
        { sessionCreated := true, commands := ["Close:", "ImportAudio:"],
          aborted := some RunAbort.parseError }) := by
  constructor
  · intro h
    simp [runMain, h]
  · intro h hp
    simp [runMain, h, hp]

/-- C4 amended, witness: a wrong-header run and a bad-track-line run. -/
theorem C4_amended_witness :
    runMain (fun s => s) (fun _ => false) "list.m3u" ["#EXTM3UX"] "/out" (fun _ => "") =
      { aborted := some RunAbort.badPlaylist } ∧
    runMain (fun s => s) (fun _ => false) "list.m3u" ["#EXTM3U", "#EXTINF:bad"] "/out"
        (fun _ => "") =
      { sessionCreated := true, commands := ["Close:", "ImportAudio:"],
        aborted := some RunAbort.parseError } :=
  ⟨(C4_amended (fun s => s) (fun _ => false) "list.m3u" ["#EXTM3UX"] "/out"
      (fun _ => "")).1 (by decide),
   (C4_amended (fun s => s) (fun _ => false) "list.m3u" ["#EXTM3U", "#EXTINF:bad"] "/out"
      (fun _ => "")).2 (by decide) (by decide)⟩

/-- C5: whenever the first line of the selected playlist differs from the
required header literal, the run exits with the bad-playlist error and the
result keeps its defaults: no editor session is created and no command is
written. -/
theorem C5_wrong_header (slugify : String → String) (fileExists : String → Bool)
    (playlist_file : String) (fileLines : List String) (output_directory : String)
    (choice : Nat → String)
    (h : (fileLines.headD "").data ≠ m3u_playlist_header.data) :
    runMain slugify fileExists playlist_file fileLines output_directory choice =
      { aborted := some RunAbort.badPlaylist } := by
  have hm : is_m3u8 playlist_file fileLines m3u_playlist_header = false := by
    unfold is_m3u8
    rw [if_neg h]
    split <;> rfl
  simp [runMain, hm]

/-- C5 witness: the header literal followed by the digit 8 is rejected. -/
theorem C5_wrong_header_witness :
    runMain (fun s => s) (fun _ => false) "p.m3u8" ["#EXTM3U8"] "/out" (fun _ => "") =
      { aborted := some RunAbort.badPlaylist } :=
  C5_wrong_header (fun s => s) (fun _ => false) "p.m3u8" ["#EXTM3U8"] "/out" (fun _ => "")
    (by decide)

/-- C2 counterexample: for a track whose artist contains the separator
substring, the manifest block written by Song.__repr__ is parsed back with
a different artist and a different title, so the round trip does not hold
for every writer-produced manifest. -/
theorem C2_counterexample :
    readSongs 0 (writeManifestLines [sepArtistSong]) =
      some [{ artist := "A", file := noFileSentinel, number := 1, runtime := 100,
              track := "B - C" }] ∧
    sepArtistSong.artist ≠ "A" ∧ sepArtistSong.track ≠ "B - C" := by decide

/-- C2 amended: parsing a writer-produced manifest yields songs equal to
the written ones in index, artist, title and duration (the file field
reverts to the parser default), provided the written tracks carry dense
1-based indices and each track satisfies the GoodSong side conditions:
nonempty artist containing neither separator pair and not ending in a
hyphen, nonempty title, no newline inside any written field, and a file
line that does not itself start with the track header. -/
theorem C2_roundtrip (songs : List Song)
    (hgood : ∀ s ∈ songs, GoodSong s)
    (hnum : songs.map Song.number = List.range' 1 songs.length) :
    readSongs 0 (writeManifestLines songs) = some (songs.map resetFile) := by
  have hhd : m3u_track_header.data.isPrefixOf m3u_playlist_header.data = false := by decide
  rw [writeManifestLines, readSongs, if_neg (by rw [hhd]; exact Bool.false_ne_true)]
  exact readSongs_writeBody songs 0 hgood hnum

/-- C2 amended, witness at a one-track manifest meeting the side
conditions. -/
theorem C2_roundtrip_witness :
    readSongs 0 (writeManifestLines [plainSong]) = some ([plainSong].map resetFile) :=
  C2_roundtrip [plainSong] (by decide) (by decide)

/-- C6: with an abort signalled at the second confirmation prompt, the
splice loop stops after the second track's pre-prompt selection commands
(no further splice commands), leaving track A exported and tracks B and C
untouched with the never-exported sentinel; reconciliation still runs and,
when A's exported file exists on disk while the sentinel path does not,
it puts A alone in the success set and B and C in the failure set. -/
theorem C6_abort_salvage (slugify : String → String) (fileExists : String → Bool)
    (output_directory : String) (choice : Nat → String) (a b c : Song)
    (h0 : choice 0 ≠ "q") (h1 : choice 1 = "q")
    (hb : b.file = noFileSentinel) (hc : c.file = noFileSentinel)
    (hfe : fileExists noFileSentinel = false)
    (ha : fileExists (exportPath slugify output_directory a.track) = true) :
    spliceLoop slugify output_directory choice 0 [a, b, c] =
      (selectCmds a ++ exportCmds (exportPath slugify output_directory a.track) ++
         selectCmds b,
       [{ a with file := exportPath slugify output_directory a.track }, b, c]) ∧
    reconcile fileExists
        [{ a with file := exportPath slugify output_directory a.track }, b, c] =
      ([{ a with file := exportPath slugify output_directory a.track }], [b, c]) := by
  constructor
  · rw [spliceLoop, if_neg h0]
    rw [spliceLoop, if_pos h1]
  · simp [reconcile, List.filter, ha, hb, hc, hfe]

/-- C6 witness at a concrete three-track run aborted at the second
prompt. -/
theorem C6_abort_salvage_witness :
    spliceLoop (fun s => s) "/outdir" (fun i => if i = 1 then "q" else "") 0
        [abortSongA, abortSongB, abortSongC] =
      (selectCmds abortSongA ++
         exportCmds (exportPath (fun s => s) "/outdir" abortSongA.track) ++
         selectCmds abortSongB,
       [{ abortSongA with file := exportPath (fun s => s) "/outdir" abortSongA.track },
        abortSongB, abortSongC]) ∧
    reconcile (fun p => p == "/outdir/alpha.wav")
        [{ abortSongA with file := exportPath (fun s => s) "/outdir" abortSongA.track },
         abortSongB, abortSongC] =
      ([{ abortSongA with file := exportPath (fun s => s) "/outdir" abortSongA.track }],
       [abortSongB, abortSongC]) :=
  C6_abort_salvage (fun s => s) (fun p => p == "/outdir/alpha.wav") "/outdir"
    (fun i => if i = 1 then "q" else "") abortSongA abortSongB abortSongC
    (by decide) (by decide) rfl rfl (by decide) (by decide)

/-- C7: in every run that reaches reconciliation, each song of the
post-splice track list belongs to the success set or to the failure set,
and to only one of them. -/
theorem C7_partition (slugify : String → String) (fileExists : String → Bool)
    (playlist_file : String) (fileLines : List String) (output_directory : String)
    (choice : Nat → String)
    (h : (runMain slugify fileExists playlist_file fileLines output_directory choice).aborted
      = none) (s : Song) :
    (s ∈ (runMain slugify fileExists playlist_file fileLines output_directory choice).songs ↔
      (s ∈ (runMain slugify fileExists playlist_file fileLines output_directory
              choice).successes ∨
       s ∈ (runMain slugify fileExists playlist_file fileLines output_directory
              choice).failures)) ∧
    ¬(s ∈ (runMain slugify fileExists playlist_file fileLines output_directory
            choice).successes ∧
      s ∈ (runMain slugify fileExists playlist_file fileLines output_directory
            choice).failures) := by
  unfold runMain at h ⊢
  by_cases hm : is_m3u8 playlist_file fileLines m3u_playlist_header
  · rw [if_pos hm] at h ⊢
    cases hr : readSongs 0 fileLines with
    | none => rw [hr] at h; simp at h
    | some songsIn =>
      dsimp only
      simp only [reconcile]
      constructor
      · constructor
        · intro hs
          by_cases hp : fileExists s.file
          · exact Or.inl (List.mem_filter.mpr ⟨hs, by simp [hp]⟩)
          · exact Or.inr (List.mem_filter.mpr ⟨hs, by simp [hp]⟩)
        · intro hs
          rcases hs with hs | hs
          · exact (List.mem_filter.mp hs).1
          · exact (List.mem_filter.mp hs).1
      · rintro ⟨h1, h2⟩
        have hp1 := (List.mem_filter.mp h1).2
        have hp2 := (List.mem_filter.mp h2).2
        simp at hp1 hp2
        rw [hp1] at hp2
        exact absurd hp2 (by decide)
  · rw [if_neg hm] at h
    simp at h

/-- C7 witness at a completed one-track run and its spliced track. -/
theorem C7_partition_witness :
    (({ artist := "Artist X", file := "/out/Song_One.wav", number := 1, runtime := 185,
        track := "Song One" } : Song) ∈
      (runMain (fun s => s) (fun _ => false) "p.m3u8"
        ["#EXTM3U", "#EXTINF:185,Artist X - Song One"] "/out" (fun _ => "")).songs ↔
      (({ artist := "Artist X", file := "/out/Song_One.wav", number := 1, runtime := 185,
          track := "Song One" } : Song) ∈
        (runMain (fun s => s) (fun _ => false) "p.m3u8"
          ["#EXTM3U", "#EXTINF:185,Artist X - Song One"] "/out" (fun _ => "")).successes ∨
       ({ artist := "Artist X", file := "/out/Song_One.wav", number := 1, runtime := 185,
          track := "Song One" } : Song) ∈
        (runMain (fun s => s) (fun _ => false) "p.m3u8"
          ["#EXTM3U", "#EXTINF:185,Artist X - Song One"] "/out" (fun _ => "")).failures)) ∧
    ¬(({ artist := "Artist X", file := "/out/Song_One.wav", number := 1, runtime := 185,
         track := "Song One" } : Song) ∈
        (runMain (fun s => s) (fun _ => false) "p.m3u8"
          ["#EXTM3U", "#EXTINF:185,Artist X - Song One"] "/out" (fun _ => "")).successes ∧
      ({ artist := "Artist X", file := "/out/Song_One.wav", number := 1, runtime := 185,
         track := "Song One" } : Song) ∈
        (runMain (fun s => s) (fun _ => false) "p.m3u8"
          ["#EXTM3U", "#EXTINF:185,Artist X - Song One"] "/out" (fun _ => "")).failures) :=
  C7_partition (fun s => s) (fun _ => false) "p.m3u8"
    ["#EXTM3U", "#EXTINF:185,Artist X - Song One"] "/out" (fun _ => "") (by decide)
    { artist := "Artist X", file := "/out/Song_One.wav", number := 1, runtime := 185,
      track := "Song One" }

/-- C8 counterexample: the claim does not hold for every nonnegative
integer.  At 16888498602639419 seconds (60 times 2 ^ 48 plus 59) the
exact quotient 2 ^ 48 + 1 - 1 / 60 rounds up to the double 2 ^ 48 + 1
(the spacing of doubles in that binade is 1 / 16, larger than 1 / 60),
so Python renders minutes 281474976710657 while the integer division of
the claim gives 281474976710656; the seconds figure 59 agrees. -/
theorem C8_counterexample :
    get_string_runtime 16888498602639419 = "281474976710657:59" ∧
    specRuntimeHint 16888498602639419 = "281474976710656:59" ∧
    ("281474976710657:59" : String) ≠ "281474976710656:59" := by decide

/-- C8 amended: for every number of seconds below 60 * 2 ^ 47 (about 267
million years, so every realistic duration) the human-facing runtime hint
produced by get_string_runtime is the integer division of the seconds by
60, a colon, and the remainder modulo 60 zero-padded to two digits, as
stated by the specification-side rendering specRuntimeHint; beyond that
range the float rounding inside int(seconds / 60) can carry the minutes
past the integer boundary.  In particular 185 seconds render as 3:05. -/
theorem C8_amended :
    (∀ seconds : Nat, seconds < 60 * 2 ^ 47 →
      get_string_runtime seconds = specRuntimeHint seconds) ∧
    get_string_runtime 185 = "3:05" := by
  constructor
  · intro s hs
    unfold get_string_runtime specRuntimeHint
    rw [pyMinutes_eq s hs]
    by_cases h : s % 60 < 10
    · rw [if_pos h, if_pos h]
      apply string_ext
      simp only [string_data_append]
      have h20 : (":0" : String).data = [':', '0'] := by decide
      have h2 : (":" : String).data = [':'] := by decide
      have h0 : ("0" : String).data = ['0'] := by decide
      simp [h20, h2, h0]
    · rw [if_neg h, if_neg h]
  · decide

/-- C8 amended, witness at the 185-second scenario of the
specification. -/
theorem C8_amended_witness : get_string_runtime 185 = specRuntimeHint 185 :=
  C8_amended.1 185 (by decide)

/-- C9: playlist validation returns false for every path whose name ends
in neither .m3u nor .m3u8, whatever the file content (in particular even
when its first line is the required header literal), and conversely every
accepted playlist has one of those two extensions, so the header check is
only reached for such paths. -/
theorem C9_extension_gate :
    (∀ (playlist_file : String) (fileLines : List String) (good_header : String),
      pyEndsWith playlist_file ".m3u" = false → pyEndsWith playlist_file ".m3u8" = false →
      is_m3u8 playlist_file fileLines good_header = false) ∧
    (∀ (playlist_file : String) (fileLines : List String) (good_header : String),
      is_m3u8 playlist_file fileLines good_header = true →
      (pyEndsWith playlist_file ".m3u" || pyEndsWith playlist_file ".m3u8") = true) := by
  constructor
  · intro p fl gh h1 h2
    simp [is_m3u8, h1, h2]
  · intro p fl gh h
    cases he : (pyEndsWith p ".m3u" || pyEndsWith p ".m3u8") with
    | true => rfl
    | false =>
      rw [is_m3u8, he] at h
      simp at h
  
/-- C9 witness: a file of the right content but wrong extension is
rejected, and an accepted playlist has an accepted extension. -/
theorem C9_extension_gate_witness :
    is_m3u8 "playlist.txt" ["#EXTM3U"] "#EXTM3U" = false ∧
    (pyEndsWith "list.m3u" ".m3u" || pyEndsWith "list.m3u" ".m3u8") = true :=
  ⟨C9_extension_gate.1 "playlist.txt" ["#EXTM3U"] "#EXTM3U" (by decide) (by decide),
   C9_extension_gate.2 "list.m3u" ["#EXTM3U"] "#EXTM3U" (by decide)⟩

/-- C10: when the slugified title begins with the character n, the
derived export filename is the base name (underscored slug plus the wav
suffix) with one leading underscore prepended; when it begins with any
other character the base name is kept unprefixed. -/
theorem C10_leading_n_guard (slugify : String → String) (track : String) :
    ((slugify track).data.head? = some 'n' →
      deriveWavName slugify track = String.mk ('_' :: baseWavChars (slugify track).data)) ∧
    (∀ c : Char, (slugify track).data.head? = some c → c ≠ 'n' →
      deriveWavName slugify track = String.mk (baseWavChars (slugify track).data)) := by
  constructor
  · intro h
    rcases hd : (slugify track).data with _ | ⟨x, xs⟩
    · rw [hd] at h; simp at h
    · rw [hd] at h
      simp only [List.head?_cons, Option.some.injEq] at h
      unfold deriveWavName deriveWavChars
      rw [hd]
      have hh : (baseWavChars (x :: xs)).head? = some 'n' := by
        simp [baseWavChars, h]
      rw [if_pos hh]
  · intro c hc hne
    rcases hd : (slugify track).data with _ | ⟨x, xs⟩
    · rw [hd] at hc; simp at hc
    · rw [hd] at hc
      simp only [List.head?_cons, Option.some.injEq] at hc
      subst hc
      unfold deriveWavName deriveWavChars
      rw [hd]
      have hh : ¬((baseWavChars (x :: xs)).head? = some 'n') := by
        simp only [baseWavChars, List.map_cons, List.cons_append, List.head?_cons,
          Option.some.injEq]
        by_cases hsp : x = ' '
        · simp [hsp]
        · simp [hsp]
          exact hne
      rw [if_neg hh]

/-- C10 witness: a slug starting with n is prefixed and one starting with
a is not. -/
theorem C10_leading_n_guard_witness :
    deriveWavName (fun _ => "night") "t" = String.mk ('_' :: baseWavChars "night".data) ∧
    deriveWavName (fun _ => "alpha") "t" = String.mk (baseWavChars "alpha".data) :=
  ⟨(C10_leading_n_guard (fun _ => "night") "t").1 (by decide),
   (C10_leading_n_guard (fun _ => "alpha") "t").2 'a' (by decide) (by decide)⟩
